import Mathlib

/-
Verification of the loan-contract financial engine
(`src/contract_parser.py`, `src/financial_calculator.py`).

Conventions of the embedding:
* Python floats are modelled as exact rationals (`ℚ`); `round(x, 2)` is
  modelled by `round2` (round to nearest at 2 decimals).
* Python code that can raise (division by zero, list index errors) is
  modelled with `Option`: `none` is the raising run.
* Row dates: the source stamps `datetime.now() + timedelta(days=30*i)` and
  formats the result; we model a date as the absolute day number
  `fechaBase + 30 * i`, with the invocation instant `fechaBase : ℤ` made an
  explicit parameter.
* Only the contract fields read by the functions under verification are
  modelled; unread fields (currency, tranches, covenants, jurisdiction,
  raw text, ...) are omitted from the record.
-/

namespace Contratos

/-- Two-decimal rounding, modelling Python `round(x, 2)` on the exact value. -/
def round2 (x : ℚ) : ℚ := (round (100 * x) : ℤ) / 100

/-- `TipoTasa` enum from `contract_parser.py`. -/
inductive TipoTasa where
  | fija
  | variable_
  deriving DecidableEq

/-- `FrecuenciaPago` enum from `contract_parser.py`. -/
inductive FrecuenciaPago where
  | mensual
  | trimestral
  | semestral
  | anual
  | bullet
  deriving DecidableEq

/-- `Comision` dataclass from `contract_parser.py`. -/
structure Comision where
  tipo : String
  valor : ℚ
  es_porcentaje : Bool
  base : String := "monto_principal"
  descripcion : String := ""
  deriving DecidableEq

/-- `Garantia` dataclass from `contract_parser.py` (general-category field omitted). -/
structure Garantia where
  tipo : String
  descripcion : String
  deriving DecidableEq

/-- `ClausulaPrepago` dataclass from `contract_parser.py`. -/
structure ClausulaPrepago where
  permitido : Bool
  penalizacion : ℚ
  periodo_penalizacion_meses : ℕ
  descripcion : String := ""
  deriving DecidableEq

/-- `ContratoParseado` dataclass from `contract_parser.py`, restricted to the
fields read by the functions verified here. Defaults follow the source. -/
structure ContratoParseado where
  prestamista : String := ""
  prestatario : String := ""
  monto_principal : ℚ := 0
  tasa_nominal : ℚ := 0
  tipo_tasa : TipoTasa := .fija
  plazo_meses : ℕ := 0
  frecuencia_pago : FrecuenciaPago := .mensual
  cap : Option ℚ := none
  floor : Option ℚ := none
  periodo_gracia_meses : ℕ := 0
  es_bullet : Bool := false
  garantias : List Garantia := []
  comisiones : List Comision := []
  prepago : Option ClausulaPrepago := none
  deriving DecidableEq

/-- `FilaAmortizacion` dataclass from `financial_calculator.py`; `fecha` is the
absolute day number of the row's date. -/
structure FilaAmortizacion where
  periodo : ℕ
  fecha : ℤ
  cuota : ℚ
  capital : ℚ
  interes : ℚ
  saldo : ℚ
  comision_mantenimiento : ℚ
  deriving DecidableEq

/-- The `comision_mant` loop shared by the three schedule generators: the last
fee of type "mantenimiento" sets the monthly rate `valor / 100`, else 0. -/
def comisionMantenimiento (comisiones : List Comision) : ℚ :=
  comisiones.foldl (fun acc com => if com.tipo = "mantenimiento" then com.valor / 100 else acc) 0

/-- Loop body of `_amortizacion_francesa`: `k` iterations remaining, current
period index `i`, running (unrounded) balance `s`. -/
def francesaRows (t cm q : ℚ) (d : ℤ) : ℕ → ℕ → ℚ → List FilaAmortizacion
  | 0, _, _ => []
  | k + 1, i, s =>
      let interes := s * t
      let capital := q - interes
      let mantenimiento := s * cm
      let saldoNuevo := max 0 (s - capital)
      { periodo := i, fecha := d + 30 * (i : ℤ), cuota := round2 q,
        capital := round2 capital, interes := round2 interes,
        saldo := round2 saldoNuevo, comision_mantenimiento := round2 mantenimiento } ::
        francesaRows t cm q d k (i + 1) saldoNuevo

/-- The fixed-payment formula of `_amortizacion_francesa` (both branches of the
`if tasa_mensual > 0` conditional). -/
def cuotaFrancesa (m t : ℚ) (n : ℕ) : ℚ :=
  if 0 < t then m * (t * (1 + t) ^ n) / ((1 + t) ^ n - 1) else m / n

/-- `FinancialCalculator._amortizacion_francesa`. `none` models the
`ZeroDivisionError` raised when the payment denominator is zero. -/
def amortizacionFrancesa (c : ContratoParseado) (d : ℤ) : Option (List FilaAmortizacion) :=
  let m := c.monto_principal
  let t := c.tasa_nominal / 100 / 12
  let n := c.plazo_meses
  let cm := comisionMantenimiento c.comisiones
  if 0 < t then
    if (1 + t) ^ n - 1 = 0 then none
    else some (francesaRows t cm (m * (t * (1 + t) ^ n) / ((1 + t) ^ n - 1)) d n 1 m)
  else
    if n = 0 then none
    else some (francesaRows t cm (m / n) d n 1 m)

/-- Loop body of `_amortizacion_bullet`: interest-only rows, with the full
balance repaid in the period whose index equals `n`. -/
def bulletRows (t cm : ℚ) (d : ℤ) (n : ℕ) : ℕ → ℕ → ℚ → List FilaAmortizacion
  | 0, _, _ => []
  | k + 1, i, s =>
      let interes := s * t
      let mantenimiento := s * cm
      if i = n then
        { periodo := i, fecha := d + 30 * (i : ℤ), cuota := round2 (s + interes),
          capital := round2 s, interes := round2 interes, saldo := round2 0,
          comision_mantenimiento := round2 mantenimiento } ::
          bulletRows t cm d n k (i + 1) 0
      else
        { periodo := i, fecha := d + 30 * (i : ℤ), cuota := round2 interes,
          capital := round2 0, interes := round2 interes, saldo := round2 s,
          comision_mantenimiento := round2 mantenimiento } ::
          bulletRows t cm d n k (i + 1) s

/-- `FinancialCalculator._amortizacion_bullet` (total: no division occurs). -/
def amortizacionBullet (c : ContratoParseado) (d : ℤ) : List FilaAmortizacion :=
  let m := c.monto_principal
  let t := c.tasa_nominal / 100 / 12
  let n := c.plazo_meses
  let cm := comisionMantenimiento c.comisiones
  bulletRows t cm d n n 1 m

/-- Interest-only rows of the grace phase of `_amortizacion_con_gracia`
(the balance `s` is never modified during grace). -/
def graceRows (t cm s : ℚ) (d : ℤ) : ℕ → ℕ → List FilaAmortizacion
  | 0, _ => []
  | k + 1, i =>
      let interes := s * t
      let mantenimiento := s * cm
      { periodo := i, fecha := d + 30 * (i : ℤ), cuota := round2 interes,
        capital := 0, interes := round2 interes, saldo := round2 s,
        comision_mantenimiento := round2 mantenimiento } :: graceRows t cm s d k (i + 1)

/-- `FinancialCalculator._amortizacion_con_gracia`. The amortization-phase
payment denominator uses the integer `n_total - n_gracia` (which Python lets
go negative), hence the `ℤ` exponent; `none` models the `ZeroDivisionError`
when that denominator is zero. -/
def amortizacionConGracia (c : ContratoParseado) (d : ℤ) : Option (List FilaAmortizacion) :=
  let m := c.monto_principal
  let t := c.tasa_nominal / 100 / 12
  let nTotal := c.plazo_meses
  let nGracia := c.periodo_gracia_meses
  let z : ℤ := (nTotal : ℤ) - (nGracia : ℤ)
  let cm := comisionMantenimiento c.comisiones
  let grace := graceRows t cm m d nGracia 1
  if c.es_bullet then
    some (grace ++ bulletRows t cm d nTotal (nTotal - nGracia) (nGracia + 1) m)
  else
    if 0 < t then
      if (1 + t) ^ z - 1 = 0 then none
      else
        some (grace ++
          francesaRows t cm (m * (t * (1 + t) ^ z) / ((1 + t) ^ z - 1)) d
            (nTotal - nGracia) (nGracia + 1) m)
    else
      if z = 0 then none
      else some (grace ++ francesaRows t cm (m / (z : ℚ)) d (nTotal - nGracia) (nGracia + 1) m)

/-- `FinancialCalculator._generar_tabla_amortizacion`: policy dispatch. -/
def generarTablaAmortizacion (c : ContratoParseado) (d : ℤ) : Option (List FilaAmortizacion) :=
  if c.es_bullet then some (amortizacionBullet c d)
  else if 0 < c.periodo_gracia_meses then amortizacionConGracia c d
  else amortizacionFrancesa c d

/-- The `periodos_por_ano` table of `_calcular_tea`. -/
def periodosPorAno : FrecuenciaPago → ℕ
  | .mensual => 12
  | .trimestral => 4
  | .semestral => 2
  | .anual => 1
  | .bullet => 1

/-- `FinancialCalculator._calcular_tea`. -/
def calcularTea (c : ContratoParseado) : ℚ :=
  let tasaNominal := c.tasa_nominal / 100
  let n : ℕ := periodosPorAno c.frecuencia_pago
  round2 (((1 + tasaNominal / n) ^ n - 1) * 100)

/-- `FinancialCalculator._calcular_cat`. -/
def calcularCat (c : ContratoParseado) (totalIntereses totalComisiones : ℚ) : ℚ :=
  let m := c.monto_principal
  let plazoAnos : ℚ := (c.plazo_meses : ℚ) / 12
  if plazoAnos = 0 ∨ m = 0 then 0
  else
    let totalPagado := m + totalIntereses + totalComisiones
    round2 ((totalPagado / m - 1) / plazoAnos * 100)

/-- `ContractParser._calcular_confianza`. Returns the score together with the
warning strings the call appends to `contrato.advertencias` (the sequential
`score -= k` / `append` statements become one deduction sum and one ordered
concatenation; note the last two deductions append nothing in the source). -/
def calcularConfianza (c : ContratoParseado) : ℚ × List String :=
  let d1 := c.monto_principal = 0
  let d2 := c.tasa_nominal = 0 ∧ c.tipo_tasa = TipoTasa.fija
  let d3 := c.plazo_meses = 0
  let d4 := c.garantias = []
  let d5 := c.comisiones = []
  let d6 := c.prestamista = ""
  let d7 := c.prestatario = ""
  let score : ℚ := 100 - (if d1 then 20 else 0) - (if d2 then 15 else 0) -
    (if d3 then 15 else 0) - (if d4 then 5 else 0) - (if d5 then 5 else 0) -
    (if d6 then 5 else 0) - (if d7 then 5 else 0)
  let advertencias :=
    (if d1 then ["No se pudo extraer el monto principal"] else []) ++
    (if d2 then ["No se pudo extraer la tasa de interés"] else []) ++
    (if d3 then ["No se pudo extraer el plazo"] else []) ++
    (if d4 then ["No se identificaron garantías explícitas"] else []) ++
    (if d5 then ["No se identificaron comisiones"] else [])
  (max 0 score, advertencias)

/-- The contract copy built inside `_analisis_sensibilidad`: a fresh
`ContratoParseado()` whose listed fields are copied, the rest defaulted. -/
def contratoModificado (c : ContratoParseado) (nuevaTasa : ℚ) : ContratoParseado :=
  { monto_principal := c.monto_principal
    tasa_nominal := nuevaTasa
    plazo_meses := c.plazo_meses
    frecuencia_pago := c.frecuencia_pago
    periodo_gracia_meses := c.periodo_gracia_meses
    es_bullet := c.es_bullet
    comisiones := c.comisiones }

/-- The cap/floor application of `_analisis_sensibilidad`. Python's
`if contrato.cap:` / `if contrato.floor:` are truthiness tests: the clamp is
skipped when the attribute is `None` and also when it equals `0`. -/
def tasaEscenario (c : ContratoParseado) (cambio : ℚ) : ℚ :=
  let nueva := c.tasa_nominal + cambio
  let nueva :=
    match c.cap with
    | some capVal => if capVal = 0 then nueva else min nueva capVal
    | none => nueva
  match c.floor with
  | some floorVal => if floorVal = 0 then nueva else max nueva floorVal
  | none => nueva

/-- The fixed scenario set of `_analisis_sensibilidad`. -/
def escenariosSensibilidad : List ℚ := [-1, -1/2, 0, 1/2, 1, 2]

/-- One entry of the `resultados` list of `_analisis_sensibilidad` (the
`cambio_tasa` label is kept as the numeric shift rather than the formatted
string). -/
structure EscenarioSensibilidad where
  cambio_tasa : ℚ
  tasa_resultante : ℚ
  cuota_promedio : ℚ
  total_intereses : ℚ
  impacto_vs_base : ℚ
  deriving DecidableEq

/-- Computation of one scenario inside the loop of `_analisis_sensibilidad`;
a `none` from a schedule recomputation (an exception in the source) aborts. -/
def escenarioEntry (c : ContratoParseado) (d : ℤ) (cambio : ℚ) :
    Option EscenarioSensibilidad :=
  let nuevaTasa := tasaEscenario c cambio
  match generarTablaAmortizacion (contratoModificado c nuevaTasa) d with
  | none => none
  | some tabla =>
      let totalIntereses := (tabla.map (fun r => r.interes)).sum
      let cuotaPromedio :=
        if tabla = [] then 0 else (tabla.map (fun r => r.cuota)).sum / (tabla.length : ℚ)
      match generarTablaAmortizacion c d with
      | none => none
      | some base =>
          some { cambio_tasa := cambio
                 tasa_resultante := round2 nuevaTasa
                 cuota_promedio := round2 cuotaPromedio
                 total_intereses := round2 totalIntereses
                 impacto_vs_base :=
                   round2 (totalIntereses - (base.map (fun r => r.interes)).sum) }

/-- `FinancialCalculator._analisis_sensibilidad`, restricted to the per-scenario
list (the wrapper metadata — cap/floor flags and reference index — carries no
computation). `none` models both the `None` returned for non-variable
contracts and an exception escaping a scenario recomputation. -/
def analisisSensibilidad (c : ContratoParseado) (d : ℤ) :
    Option (List EscenarioSensibilidad) :=
  if c.tipo_tasa = TipoTasa.variable_ then escenariosSensibilidad.mapM (escenarioEntry c d)
  else none

/-- Python list slice `l[:stop]` for a possibly negative `stop`. -/
def pySliceStop (l : List FilaAmortizacion) (stop : ℤ) : List FilaAmortizacion :=
  if 0 ≤ stop then l.take stop.toNat else l.take (l.length - stop.natAbs)

/-- Python list indexing `l[i]` for a possibly negative `i`; `none` is the
`IndexError` run. -/
def pyGet (l : List FilaAmortizacion) (i : ℤ) : Option FilaAmortizacion :=
  if 0 ≤ i then l[i.toNat]?
  else if i.natAbs ≤ l.length then l[l.length - i.natAbs]? else none

/-- The dictionary returned by `calcular_escenario_prepago`. -/
structure ResultadoPrepago where
  ahorro_intereses : ℚ
  penalizacion : ℚ
  beneficio_neto : ℚ
  recomendacion : String
  deriving DecidableEq

/-- `FinancialCalculator.calcular_escenario_prepago`. The `tabla_prepago` list
built inside the source's loop is a local variable that never reaches the
returned dictionary (and its construction cannot raise), so it is omitted
here; every quantity of the returned dictionary is reproduced. -/
def calcularEscenarioPrepago (c : ContratoParseado) (d : ℤ) (mesPrepago : ℕ)
    (montoPrepago : ℚ) : Option ResultadoPrepago :=
  match generarTablaAmortizacion c d with
  | none => none
  | some tablaOriginal =>
      let totalOriginal := (tablaOriginal.map (fun r => r.interes)).sum
      let tasaMensual := c.tasa_nominal / 100 / 12
      let penalizacion : ℚ :=
        match c.prepago with
        | some cl =>
            if mesPrepago ≤ cl.periodo_penalizacion_meses then
              montoPrepago * cl.penalizacion / 100
            else 0
        | none => 0
      let totalConPrepago :=
        ((pySliceStop tablaOriginal ((mesPrepago : ℤ) - 1)).map (fun r => r.interes)).sum
      match (if (mesPrepago : ℤ) ≤ (tablaOriginal.length : ℤ) then
          (pyGet tablaOriginal ((mesPrepago : ℤ) - 1)).map (fun fila => fila.saldo - montoPrepago)
        else some 0) with
      | none => none
      | some saldoReducido =>
          let periodosRestantes : ℤ := (c.plazo_meses : ℤ) - (mesPrepago : ℤ)
          let interesesRestantes := saldoReducido * tasaMensual * (periodosRestantes : ℚ) * (1/2)
          let ahorroIntereses := totalOriginal - totalConPrepago - interesesRestantes
          some { ahorro_intereses := round2 ahorroIntereses
                 penalizacion := round2 penalizacion
                 beneficio_neto := round2 (ahorroIntereses - penalizacion)
                 recomendacion :=
                   if penalizacion < ahorroIntereses then "Prepago recomendado"
                   else "Evaluar conveniencia" }

/-- Spec-side comparison definition for C8, following the specification's
words: the annuity payment with periodic rate `nominal ÷ 100 ÷ periods-per-year`
and `n` the term in periods of the contract's payment frequency. -/
def cuotaSegunSpecC8 (c : ContratoParseado) : ℚ :=
  let p := periodosPorAno c.frecuencia_pago
  let i := c.tasa_nominal / 100 / (p : ℚ)
  let nPer : ℕ := c.plazo_meses * p / 12
  if 0 < i then c.monto_principal * (i * (1 + i) ^ nPer) / ((1 + i) ^ nPer - 1)
  else c.monto_principal / (nPer : ℚ)

/-- Spec-side comparison definition for C9, following the specification's
words: `clamp(nominal + shift, floor, cap)`, each bound applied exactly when
the corresponding attribute is present on the contract. -/
def tasaSegunSpecC9 (c : ContratoParseado) (cambio : ℚ) : ℚ :=
  let x := c.tasa_nominal + cambio
  let x :=
    match c.cap with
    | some capVal => min x capVal
    | none => x
  match c.floor with
  | some floorVal => max x floorVal
  | none => x

/-- A fully defaulted contract (every extractor failed). -/
def contratoVacio : ContratoParseado := {}

/-- The end-to-end scenario contract of the specification: principal 100,000,
nominal 12% annual, 12 monthly periods, no fees. -/
def contratoC2 : ContratoParseado :=
  { monto_principal := 100000, tasa_nominal := 12, plazo_meses := 12 }

/-- Concrete contract used to examine per-row rounding: principal 0.3075,
nominal 600% annual (monthly rate 1/2), term 2 months. -/
def contratoC4 : ContratoParseado :=
  { monto_principal := 123/400, tasa_nominal := 600, plazo_meses := 2 }

/-- Quarterly-frequency contract: principal 1000, nominal 12%, term 12 months. -/
def contratoC8 : ContratoParseado :=
  { monto_principal := 1000, tasa_nominal := 12, plazo_meses := 12,
    frecuencia_pago := .trimestral }

/-- Quarterly-frequency contract with a 2-month term. -/
def contratoC8w : ContratoParseado :=
  { monto_principal := 1000, tasa_nominal := 12, plazo_meses := 2,
    frecuencia_pago := .trimestral }

/-- Variable-rate contract whose cap is present with value 0. -/
def contratoC9cap0 : ContratoParseado :=
  { monto_principal := 1000, tasa_nominal := 5, plazo_meses := 1,
    tipo_tasa := .variable_, cap := some 0 }

/-- The specification's sensitivity scenario contract: variable rate,
nominal 5%, cap 7%, floor 3%. -/
def contratoC9capfloor : ContratoParseado :=
  { monto_principal := 1000, tasa_nominal := 5, plazo_meses := 1,
    tipo_tasa := .variable_, cap := some 7, floor := some 3 }

/-! ### Rounding lemmas -/

lemma round2_zero : round2 0 = 0 := by
  simp [round2]

lemma round2_mono {x y : ℚ} (h : x ≤ y) : round2 x ≤ round2 y := by
  have h1 : round (100 * x) ≤ round (100 * y) := by
    rw [round_eq, round_eq]
    exact Int.floor_le_floor (by linarith)
  have h2 : ((round (100 * x) : ℤ) : ℚ) ≤ ((round (100 * y) : ℤ) : ℚ) := by exact_mod_cast h1
  unfold round2
  linarith

lemma round2_nonneg {x : ℚ} (h : 0 ≤ x) : 0 ≤ round2 x := by
  have := round2_mono h
  rwa [round2_zero] at this

/-- Independently rounding the two addends of a sum moves the rounded sum by at
most one cent. -/
lemma abs_round2_add_round2_sub_round2 (x y : ℚ) :
    |round2 x + round2 y - round2 (x + y)| ≤ 1 / 100 := by
  have hA := abs_sub_round (100 * x)
  have hB := abs_sub_round (100 * y)
  have hC := abs_sub_round (100 * (x + y))
  have hq : |((round (100 * x) + round (100 * y) - round (100 * (x + y)) : ℤ) : ℚ)| ≤ 3 / 2 := by
    push_cast
    have hrw : ((round (100 * x) : ℚ) + (round (100 * y) : ℚ) - (round (100 * (x + y)) : ℚ))
        = -((100 * x - round (100 * x)) + (100 * y - round (100 * y))
            - (100 * (x + y) - round (100 * (x + y)))) := by ring
    rw [hrw, abs_neg]
    calc |(100 * x - round (100 * x)) + (100 * y - round (100 * y))
            - (100 * (x + y) - round (100 * (x + y)))|
        ≤ |(100 * x - round (100 * x)) + (100 * y - round (100 * y))|
            + |100 * (x + y) - round (100 * (x + y))| := abs_sub _ _
      _ ≤ |100 * x - round (100 * x)| + |100 * y - round (100 * y)|
            + |100 * (x + y) - round (100 * (x + y))| := by
            have := abs_add (100 * x - round (100 * x)) (100 * y - round (100 * y))
            linarith
      _ ≤ 1 / 2 + 1 / 2 + 1 / 2 := by linarith
      _ = 3 / 2 := by norm_num
  have hz : |(round (100 * x) + round (100 * y) - round (100 * (x + y)) : ℤ)| ≤ 1 := by
    have h2 : ((|round (100 * x) + round (100 * y) - round (100 * (x + y))| : ℤ) : ℚ) ≤ 3 / 2 := by
      rw [Int.cast_abs]; exact hq
    have h3 : ((|round (100 * x) + round (100 * y) - round (100 * (x + y))| : ℤ) : ℚ) < 2 :=
      h2.trans_lt (by norm_num)
    have h4 : |round (100 * x) + round (100 * y) - round (100 * (x + y))| < 2 := by
      exact_mod_cast h3
    omega
  have hrepr : round2 x + round2 y - round2 (x + y)
      = ((round (100 * x) + round (100 * y) - round (100 * (x + y)) : ℤ) : ℚ) / 100 := by
    unfold round2
    push_cast
    ring
  rw [hrepr, abs_div, abs_of_pos (show (0:ℚ) < 100 by norm_num)]
  have h5 : |((round (100 * x) + round (100 * y) - round (100 * (x + y)) : ℤ) : ℚ)| ≤ 1 := by
    rw [← Int.cast_abs]
    exact_mod_cast hz
  linarith

/-! ### The exact (unrounded) balance recursion of the annuity loop -/

/-- One iteration of the balance update in `_amortizacion_francesa`'s loop:
`saldo_nuevo = max(0, saldo - (cuota - interes))` with `interes = saldo * t`. -/
def saldoSiguiente (t q s : ℚ) : ℚ := max 0 (s - (q - s * t))

/-- The exact balance after `k` iterations of the annuity loop started at `s`. -/
def saldoN (t q s : ℚ) : ℕ → ℚ
  | 0 => s
  | k + 1 => saldoSiguiente t q (saldoN t q s k)

lemma saldoN_succ_left (t q s : ℚ) (k : ℕ) :
    saldoN t q s (k + 1) = saldoN t q (saldoSiguiente t q s) k := by
  induction k with
  | zero => rfl
  | succ k ih =>
      show saldoSiguiente t q (saldoN t q s (k + 1)) = saldoN t q (saldoSiguiente t q s) (k + 1)
      rw [ih]
      rfl

lemma saldoSiguiente_nonneg_le (t q s : ℚ) (hs : 0 ≤ s) (hq : t * s ≤ q) :
    0 ≤ saldoSiguiente t q s ∧ saldoSiguiente t q s ≤ s := by
  constructor
  · exact le_max_left 0 _
  · apply max_le hs
    nlinarith

/-- Closed form of the exact balance under the annuity payment, positive rate. -/
lemma saldoN_closed (t m : ℚ) (ht : 0 < t) (hm : 0 ≤ m) (n : ℕ) (hn : 0 < n) :
    ∀ k, k ≤ n →
      saldoN t (m * (t * (1 + t) ^ n) / ((1 + t) ^ n - 1)) m k
        = m / ((1 + t) ^ n - 1) * ((1 + t) ^ n - (1 + t) ^ k) := by
  have hA : 1 < (1 + t) ^ n := one_lt_pow₀ (by linarith) hn.ne'
  have hA0 : (1 + t) ^ n - 1 ≠ 0 := by linarith
  intro k
  induction k with
  | zero =>
      intro _
      show m = m / ((1 + t) ^ n - 1) * ((1 + t) ^ n - (1 + t) ^ 0)
      field_simp
  | succ k ih =>
      intro hk1
      have hk : k ≤ n := Nat.le_of_succ_le hk1
      have hpow : (1 + t) ^ (k + 1) ≤ (1 + t) ^ n :=
        pow_le_pow_right₀ (by linarith) hk1
      show saldoSiguiente t (m * (t * (1 + t) ^ n) / ((1 + t) ^ n - 1))
          (saldoN t (m * (t * (1 + t) ^ n) / ((1 + t) ^ n - 1)) m k)
          = m / ((1 + t) ^ n - 1) * ((1 + t) ^ n - (1 + t) ^ (k + 1))
      rw [ih hk]
      unfold saldoSiguiente
      have harith : m / ((1 + t) ^ n - 1) * ((1 + t) ^ n - (1 + t) ^ k)
            - (m * (t * (1 + t) ^ n) / ((1 + t) ^ n - 1)
              - m / ((1 + t) ^ n - 1) * ((1 + t) ^ n - (1 + t) ^ k) * t)
          = m / ((1 + t) ^ n - 1) * ((1 + t) ^ n - (1 + t) ^ (k + 1)) := by
        field_simp
        ring
      rw [harith]
      apply max_eq_right
      apply mul_nonneg
      · exact div_nonneg hm (by linarith)
      · linarith

/-- Closed form of the exact balance under the zero-rate payment `m / n`. -/
lemma saldoN_zero_rate (m : ℚ) (hm : 0 ≤ m) (n : ℕ) (hn : 0 < n) :
    ∀ k, k ≤ n → saldoN 0 (m / n) m k = m * ((n : ℚ) - k) / n := by
  have hn0 : (n : ℚ) ≠ 0 := Nat.cast_ne_zero.2 hn.ne'
  intro k
  induction k with
  | zero =>
      intro _
      show m = m * ((n : ℚ) - 0) / n
      field_simp
  | succ k ih =>
      intro hk1
      have hk : k ≤ n := Nat.le_of_succ_le hk1
      push_cast
      show saldoSiguiente 0 (m / n) (saldoN 0 (m / n) m k) = m * ((n : ℚ) - ((k : ℚ) + 1)) / n
      rw [ih hk]
      unfold saldoSiguiente
      have harith : m * ((n : ℚ) - k) / n - (m / n - m * ((n : ℚ) - k) / n * 0)
          = m * ((n : ℚ) - (k + 1)) / n := by
        field_simp
        ring
      rw [harith]
      apply max_eq_right
      have hcast : (k : ℚ) + 1 ≤ n := by exact_mod_cast hk1
      apply div_nonneg _ (by positivity)
      apply mul_nonneg hm
      push_cast
      linarith

/-! ### Structural lemmas about the annuity loop -/

/-- Shift of a row's date by `d` days; every other field is untouched. -/
def shiftFila (d : ℤ) (r : FilaAmortizacion) : FilaAmortizacion :=
  { r with fecha := r.fecha + d }

lemma getLast?_cons_of_ne_nil {α : Type} (a : α) {l : List α} (h : l ≠ []) :
    (a :: l).getLast? = l.getLast? := by
  cases l with
  | nil => exact absurd rfl h
  | cons b l => exact List.getLast?_cons_cons

lemma francesaRows_succ (t cm q : ℚ) (d : ℤ) (k i : ℕ) (s : ℚ) :
    francesaRows t cm q d (k + 1) i s =
      { periodo := i, fecha := d + 30 * (i : ℤ), cuota := round2 q,
        capital := round2 (q - s * t), interes := round2 (s * t),
        saldo := round2 (saldoSiguiente t q s),
        comision_mantenimiento := round2 (s * cm) } ::
        francesaRows t cm q d k (i + 1) (saldoSiguiente t q s) := rfl

lemma francesaRows_length (t cm q : ℚ) (d : ℤ) :
    ∀ (k i : ℕ) (s : ℚ), (francesaRows t cm q d k i s).length = k := by
  intro k
  induction k with
  | zero => intro i s; rfl
  | succ k ih =>
      intro i s
      rw [francesaRows_succ, List.length_cons, ih]

lemma francesaRows_cuota (t cm q : ℚ) (d : ℤ) :
    ∀ (k i : ℕ) (s : ℚ), ∀ r ∈ francesaRows t cm q d k i s, r.cuota = round2 q := by
  intro k
  induction k with
  | zero => intro i s r hr; cases hr
  | succ k ih =>
      intro i s r hr
      rw [francesaRows_succ] at hr
      rcases List.mem_cons.1 hr with h | h
      · rw [h]
      · exact ih (i + 1) (saldoSiguiente t q s) r h

lemma francesaRows_saldo_bounds (t cm q : ℚ) (d : ℤ) (ht : 0 ≤ t) :
    ∀ (k i : ℕ) (s : ℚ), 0 ≤ s → t * s ≤ q →
      (∀ r ∈ francesaRows t cm q d k i s, 0 ≤ r.saldo ∧ r.saldo ≤ round2 s) ∧
      List.Chain' (fun a b => b.saldo ≤ a.saldo) (francesaRows t cm q d k i s) := by
  intro k
  induction k with
  | zero => intro i s _ _; exact ⟨fun r hr => absurd hr (List.not_mem_nil r), List.chain'_nil⟩
  | succ k ih =>
      intro i s hs hq
      obtain ⟨h0, hle⟩ := saldoSiguiente_nonneg_le t q s hs hq
      have hq' : t * saldoSiguiente t q s ≤ q :=
        le_trans (mul_le_mul_of_nonneg_left hle ht) hq
      obtain ⟨ihmem, ihchain⟩ := ih (i + 1) (saldoSiguiente t q s) h0 hq'
      rw [francesaRows_succ]
      constructor
      · intro r hr
        rcases List.mem_cons.1 hr with h | h
        · rw [h]
          exact ⟨round2_nonneg h0, round2_mono hle⟩
        · obtain ⟨hr0, hrle⟩ := ihmem r h
          exact ⟨hr0, hrle.trans (round2_mono hle)⟩
      · rw [List.chain'_cons']
        refine ⟨fun y hy => ?_, ihchain⟩
        exact (ihmem y (List.mem_of_mem_head? hy)).2

lemma francesaRows_getLast (t cm q : ℚ) (d : ℤ) :
    ∀ (k i : ℕ) (s : ℚ), 0 < k →
      ∃ r, (francesaRows t cm q d k i s).getLast? = some r ∧
        r.saldo = round2 (saldoN t q s k) := by
  intro k
  induction k with
  | zero => intro i s h; exact absurd h (lt_irrefl 0)
  | succ k ih =>
      intro i s _
      cases k with
      | zero =>
          refine ⟨_, rfl, ?_⟩
          rfl
      | succ k' =>
          obtain ⟨r, hlast, hsaldo⟩ :=
            ih (i + 1) (saldoSiguiente t q s) (Nat.succ_pos k')
          refine ⟨r, ?_, ?_⟩
          · rw [francesaRows_succ]
            rw [getLast?_cons_of_ne_nil _ ?_, hlast]
            intro hnil
            have := francesaRows_length t cm q d (k' + 1) (i + 1) (saldoSiguiente t q s)
            rw [hnil] at this
            exact absurd this.symm (Nat.succ_ne_zero k')
          · rw [hsaldo]
            exact (congrArg round2 (saldoN_succ_left t q s (k' + 1))).symm

lemma francesaRows_split (t cm q : ℚ) (d : ℤ) :
    ∀ (k i : ℕ) (s : ℚ), ∀ r ∈ francesaRows t cm q d k i s,
      ∃ x y, r.capital = round2 x ∧ r.interes = round2 y ∧ r.cuota = round2 (x + y) := by
  intro k
  induction k with
  | zero => intro i s r hr; cases hr
  | succ k ih =>
      intro i s r hr
      rw [francesaRows_succ] at hr
      rcases List.mem_cons.1 hr with h | h
      · refine ⟨q - s * t, s * t, ?_, ?_, ?_⟩ <;> rw [h]
        rw [show q - s * t + s * t = q by ring]
      · exact ih (i + 1) (saldoSiguiente t q s) r h

lemma francesaRows_shift (t cm q : ℚ) (d : ℤ) :
    ∀ (k i : ℕ) (s : ℚ),
      francesaRows t cm q d k i s = (francesaRows t cm q 0 k i s).map (shiftFila d) := by
  intro k
  induction k with
  | zero => intro i s; rfl
  | succ k ih =>
      intro i s
      rw [francesaRows_succ, francesaRows_succ, List.map_cons, ih (i + 1)]
      congr 1
      simp [shiftFila]
      omega

/-! ### Structural lemmas about the bullet and grace loops -/

lemma bulletRows_succ (t cm : ℚ) (d : ℤ) (n k i : ℕ) (s : ℚ) :
    bulletRows t cm d n (k + 1) i s =
      if i = n then
        { periodo := i, fecha := d + 30 * (i : ℤ), cuota := round2 (s + s * t),
          capital := round2 s, interes := round2 (s * t), saldo := round2 0,
          comision_mantenimiento := round2 (s * cm) } ::
          bulletRows t cm d n k (i + 1) 0
      else
        { periodo := i, fecha := d + 30 * (i : ℤ), cuota := round2 (s * t),
          capital := round2 0, interes := round2 (s * t), saldo := round2 s,
          comision_mantenimiento := round2 (s * cm) } ::
          bulletRows t cm d n k (i + 1) s := rfl

lemma bulletRows_length (t cm : ℚ) (d : ℤ) (n : ℕ) :
    ∀ (k i : ℕ) (s : ℚ), (bulletRows t cm d n k i s).length = k := by
  intro k
  induction k with
  | zero => intro i s; rfl
  | succ k ih =>
      intro i s
      rw [bulletRows_succ]
      by_cases hi : i = n <;> simp [hi, ih]

lemma bulletRows_saldo_bounds (t cm : ℚ) (d : ℤ) (n : ℕ) :
    ∀ (k i : ℕ) (s : ℚ), 0 ≤ s →
      (∀ r ∈ bulletRows t cm d n k i s, 0 ≤ r.saldo ∧ r.saldo ≤ round2 s) ∧
      List.Chain' (fun a b => b.saldo ≤ a.saldo) (bulletRows t cm d n k i s) := by
  intro k
  induction k with
  | zero => intro i s _; exact ⟨fun r hr => absurd hr (List.not_mem_nil r), List.chain'_nil⟩
  | succ k ih =>
      intro i s hs
      rw [bulletRows_succ]
      by_cases hi : i = n
      · rw [if_pos hi]
        obtain ⟨ihmem, ihchain⟩ := ih (i + 1) 0 le_rfl
        constructor
        · intro r hr
          rcases List.mem_cons.1 hr with h | h
          · rw [h]
            exact ⟨le_of_eq round2_zero.symm, by rw [round2_zero]; exact round2_nonneg hs⟩
          · obtain ⟨hr0, hrle⟩ := ihmem r h
            rw [round2_zero] at hrle
            exact ⟨hr0, hrle.trans (round2_nonneg hs)⟩
        · rw [List.chain'_cons']
          refine ⟨fun y hy => ?_, ihchain⟩
          have := (ihmem y (List.mem_of_mem_head? hy)).2
          rw [round2_zero] at this
          exact this.trans (le_of_eq round2_zero.symm)
      · rw [if_neg hi]
        obtain ⟨ihmem, ihchain⟩ := ih (i + 1) s hs
        constructor
        · intro r hr
          rcases List.mem_cons.1 hr with h | h
          · rw [h]
            exact ⟨round2_nonneg hs, le_rfl⟩
          · exact ihmem r h
        · rw [List.chain'_cons']
          refine ⟨fun y hy => ?_, ihchain⟩
          exact (ihmem y (List.mem_of_mem_head? hy)).2

lemma bulletRows_getLast (t cm : ℚ) (d : ℤ) (n : ℕ) :
    ∀ (k i : ℕ) (s : ℚ), 0 < k → i + k = n + 1 →
      ∃ r, (bulletRows t cm d n k i s).getLast? = some r ∧ r.saldo = 0 := by
  intro k
  induction k with
  | zero => intro i s h _; exact absurd h (lt_irrefl 0)
  | succ k ih =>
      intro i s _ hinv
      cases k with
      | zero =>
          have hi : i = n := by omega
          rw [bulletRows_succ, if_pos hi]
          exact ⟨_, rfl, round2_zero⟩
      | succ k' =>
          have hi : i ≠ n := by omega
          rw [bulletRows_succ, if_neg hi]
          obtain ⟨r, hlast, hsaldo⟩ := ih (i + 1) s (Nat.succ_pos k') (by omega)
          refine ⟨r, ?_, hsaldo⟩
          rw [getLast?_cons_of_ne_nil _ ?_, hlast]
          intro hnil
          have := bulletRows_length t cm d n (k' + 1) (i + 1) s
          rw [hnil] at this
          exact absurd this.symm (Nat.succ_ne_zero k')

lemma bulletRows_split (t cm : ℚ) (d : ℤ) (n : ℕ) :
    ∀ (k i : ℕ) (s : ℚ), ∀ r ∈ bulletRows t cm d n k i s,
      ∃ x y, r.capital = round2 x ∧ r.interes = round2 y ∧ r.cuota = round2 (x + y) := by
  intro k
  induction k with
  | zero => intro i s r hr; cases hr
  | succ k ih =>
      intro i s r hr
      rw [bulletRows_succ] at hr
      by_cases hi : i = n
      · rw [if_pos hi] at hr
        rcases List.mem_cons.1 hr with h | h
        · exact ⟨s, s * t, by rw [h], by rw [h], by rw [h]⟩
        · exact ih (i + 1) 0 r h
      · rw [if_neg hi] at hr
        rcases List.mem_cons.1 hr with h | h
        · refine ⟨0, s * t, by rw [h], by rw [h], ?_⟩
          rw [h]
          rw [show (0 : ℚ) + s * t = s * t by ring]
        · exact ih (i + 1) s r h

lemma bulletRows_shift (t cm : ℚ) (d : ℤ) (n : ℕ) :
    ∀ (k i : ℕ) (s : ℚ),
      bulletRows t cm d n k i s = (bulletRows t cm 0 n k i s).map (shiftFila d) := by
  intro k
  induction k with
  | zero => intro i s; rfl
  | succ k ih =>
      intro i s
      rw [bulletRows_succ, bulletRows_succ]
      by_cases hi : i = n
      · rw [if_pos hi, if_pos hi, List.map_cons, ih (i + 1)]
        congr 1
        simp [shiftFila]
        omega
      · rw [if_neg hi, if_neg hi, List.map_cons, ih (i + 1)]
        congr 1
        simp [shiftFila]
        omega

lemma graceRows_succ (t cm s : ℚ) (d : ℤ) (k i : ℕ) :
    graceRows t cm s d (k + 1) i =
      { periodo := i, fecha := d + 30 * (i : ℤ), cuota := round2 (s * t),
        capital := 0, interes := round2 (s * t), saldo := round2 s,
        comision_mantenimiento := round2 (s * cm) } :: graceRows t cm s d k (i + 1) := rfl

lemma graceRows_length (t cm s : ℚ) (d : ℤ) :
    ∀ (k i : ℕ), (graceRows t cm s d k i).length = k := by
  intro k
  induction k with
  | zero => intro i; rfl
  | succ k ih =>
      intro i
      rw [graceRows_succ, List.length_cons, ih]

lemma graceRows_saldo (t cm s : ℚ) (d : ℤ) :
    ∀ (k i : ℕ), ∀ r ∈ graceRows t cm s d k i, r.saldo = round2 s := by
  intro k
  induction k with
  | zero => intro i r hr; cases hr
  | succ k ih =>
      intro i r hr
      rw [graceRows_succ] at hr
      rcases List.mem_cons.1 hr with h | h
      · rw [h]
      · exact ih (i + 1) r h

lemma graceRows_chain (t cm s : ℚ) (d : ℤ) (k i : ℕ) :
    List.Chain' (fun a b => b.saldo ≤ a.saldo) (graceRows t cm s d k i) := by
  induction k generalizing i with
  | zero => exact List.chain'_nil
  | succ k ih =>
      rw [graceRows_succ, List.chain'_cons']
      refine ⟨fun y hy => ?_, ih (i + 1)⟩
      rw [graceRows_saldo t cm s d k (i + 1) y (List.mem_of_mem_head? hy)]

lemma graceRows_split (t cm s : ℚ) (d : ℤ) :
    ∀ (k i : ℕ), ∀ r ∈ graceRows t cm s d k i,
      ∃ x y, r.capital = round2 x ∧ r.interes = round2 y ∧ r.cuota = round2 (x + y) := by
  intro k
  induction k with
  | zero => intro i r hr; cases hr
  | succ k ih =>
      intro i r hr
      rw [graceRows_succ] at hr
      rcases List.mem_cons.1 hr with h | h
      · refine ⟨0, s * t, ?_, by rw [h], ?_⟩
        · rw [h]
          exact round2_zero.symm
        · rw [h]
          rw [show (0 : ℚ) + s * t = s * t by ring]
      · exact ih (i + 1) r h

lemma graceRows_shift (t cm s : ℚ) (d : ℤ) :
    ∀ (k i : ℕ), graceRows t cm s d k i = (graceRows t cm s 0 k i).map (shiftFila d) := by
  intro k
  induction k with
  | zero => intro i; rfl
  | succ k ih =>
      intro i
      rw [graceRows_succ, graceRows_succ, List.map_cons, ih (i + 1)]
      congr 1
      simp [shiftFila]
      omega

/-! ### Whole-table properties of each amortization policy -/

lemma cuotaFrancesa_ge (m t : ℚ) (n : ℕ) (hm : 0 ≤ m) (ht : 0 ≤ t) (hn : 0 < n) :
    t * m ≤ cuotaFrancesa m t n := by
  rcases ht.lt_or_eq with ht' | ht'
  · rw [cuotaFrancesa, if_pos ht']
    have hA : 1 < (1 + t) ^ n := one_lt_pow₀ (by linarith) hn.ne'
    rw [le_div_iff₀ (by linarith)]
    have h0 : 0 ≤ t * m := mul_nonneg ht'.le hm
    nlinarith
  · rw [← ht', cuotaFrancesa, if_neg (lt_irrefl 0), zero_mul]
    exact div_nonneg hm (Nat.cast_nonneg n)

lemma saldoN_cuotaFrancesa (m t : ℚ) (n : ℕ) (hm : 0 ≤ m) (ht : 0 ≤ t) (hn : 0 < n) :
    saldoN t (cuotaFrancesa m t n) m n = 0 := by
  rcases ht.lt_or_eq with ht' | ht'
  · rw [cuotaFrancesa, if_pos ht']
    rw [saldoN_closed t m ht' hm n hn n le_rfl, sub_self, mul_zero]
  · rw [← ht', cuotaFrancesa, if_neg (lt_irrefl 0)]
    rw [saldoN_zero_rate m hm n hn n le_rfl, sub_self, mul_zero, zero_div]

/-- Every property C1 needs, for an annuity block of `n` rows starting at any
period index `i` with starting balance `m`. -/
lemma francesa_table_props (m t cm : ℚ) (d : ℤ) (n i : ℕ)
    (hm : 0 ≤ m) (ht : 0 ≤ t) (hn : 0 < n) :
    (∀ r ∈ francesaRows t cm (cuotaFrancesa m t n) d n i m,
        0 ≤ r.saldo ∧ r.saldo ≤ round2 m ∧ r.cuota = round2 (cuotaFrancesa m t n)) ∧
    List.Chain' (fun a b => b.saldo ≤ a.saldo)
      (francesaRows t cm (cuotaFrancesa m t n) d n i m) ∧
    ∃ last, (francesaRows t cm (cuotaFrancesa m t n) d n i m).getLast? = some last ∧
      last.saldo = 0 := by
  have hqtm : t * m ≤ cuotaFrancesa m t n := cuotaFrancesa_ge m t n hm ht hn
  obtain ⟨hmem, hchain⟩ :=
    francesaRows_saldo_bounds t cm (cuotaFrancesa m t n) d ht n i m hm hqtm
  refine ⟨fun r hr => ⟨(hmem r hr).1, (hmem r hr).2,
    francesaRows_cuota t cm (cuotaFrancesa m t n) d n i m r hr⟩, hchain, ?_⟩
  obtain ⟨last, hlast, hsal⟩ := francesaRows_getLast t cm (cuotaFrancesa m t n) d n i m hn
  refine ⟨last, hlast, ?_⟩
  rw [hsal, saldoN_cuotaFrancesa m t n hm ht hn, round2_zero]

/-- Every property C1 needs, for a full bullet table. -/
lemma bullet_table_props (m t cm : ℚ) (d : ℤ) (n : ℕ) (hm : 0 ≤ m) (hn : 0 < n) :
    (∀ r ∈ bulletRows t cm d n n 1 m, 0 ≤ r.saldo ∧ r.saldo ≤ round2 m) ∧
    List.Chain' (fun a b => b.saldo ≤ a.saldo) (bulletRows t cm d n n 1 m) ∧
    ∃ last, (bulletRows t cm d n n 1 m).getLast? = some last ∧ last.saldo = 0 := by
  obtain ⟨hmem, hchain⟩ := bulletRows_saldo_bounds t cm d n n 1 m hm
  obtain ⟨last, hlast, hsal⟩ := bulletRows_getLast t cm d n n 1 m hn (by omega)
  exact ⟨hmem, hchain, last, hlast, hsal⟩

/-! ### The generated table of each policy function -/

lemma amortizacionFrancesa_eq (c : ContratoParseado) (d : ℤ)
    (hn : 0 < c.plazo_meses) :
    amortizacionFrancesa c d =
      some (francesaRows (c.tasa_nominal / 100 / 12) (comisionMantenimiento c.comisiones)
        (cuotaFrancesa c.monto_principal (c.tasa_nominal / 100 / 12) c.plazo_meses) d
        c.plazo_meses 1 c.monto_principal) := by
  simp only [amortizacionFrancesa, cuotaFrancesa]
  by_cases ht : 0 < c.tasa_nominal / 100 / 12
  · have hA : 1 < (1 + c.tasa_nominal / 100 / 12) ^ c.plazo_meses :=
      one_lt_pow₀ (by linarith) hn.ne'
    rw [if_pos ht, if_pos ht, if_neg (by intro h; nlinarith)]
  · rw [if_neg ht, if_neg ht, if_neg hn.ne']

lemma amortizacionConGracia_eq (c : ContratoParseado) (d : ℤ)
    (hb : c.es_bullet = false)
    (hgn : c.periodo_gracia_meses < c.plazo_meses) :
    amortizacionConGracia c d =
      some (graceRows (c.tasa_nominal / 100 / 12) (comisionMantenimiento c.comisiones)
          c.monto_principal d c.periodo_gracia_meses 1 ++
        francesaRows (c.tasa_nominal / 100 / 12) (comisionMantenimiento c.comisiones)
          (cuotaFrancesa c.monto_principal (c.tasa_nominal / 100 / 12)
            (c.plazo_meses - c.periodo_gracia_meses)) d
          (c.plazo_meses - c.periodo_gracia_meses) (c.periodo_gracia_meses + 1)
          c.monto_principal) := by
  have hz : ((c.plazo_meses : ℤ) - (c.periodo_gracia_meses : ℤ))
      = ((c.plazo_meses - c.periodo_gracia_meses : ℕ) : ℤ) := by omega
  have hn' : 0 < c.plazo_meses - c.periodo_gracia_meses := by omega
  simp only [amortizacionConGracia, cuotaFrancesa, hb, Bool.false_eq_true, if_false, hz,
    zpow_natCast, Int.cast_natCast]
  by_cases ht : 0 < c.tasa_nominal / 100 / 12
  · have hA : 1 < (1 + c.tasa_nominal / 100 / 12) ^ (c.plazo_meses - c.periodo_gracia_meses) :=
      one_lt_pow₀ (by linarith) hn'.ne'
    rw [if_pos ht, if_pos ht, if_neg (by intro h; nlinarith)]
  · rw [if_neg ht, if_neg ht,
      if_neg (by exact_mod_cast fun h => hn'.ne' (by exact_mod_cast h))]

/-- The invariants of C1, proved for the dispatcher
`_generar_tabla_amortizacion` on any contract with nonnegative principal and
rate, a positive term, and a grace period that is zero or shorter than the
term: the table exists, balances are nonnegative and non-increasing, and the
final balance is exactly 0. -/
lemma generar_invariants (c : ContratoParseado) (d : ℤ)
    (hm : 0 ≤ c.monto_principal) (hr : 0 ≤ c.tasa_nominal) (hn : 0 < c.plazo_meses)
    (hg : c.periodo_gracia_meses = 0 ∨ c.periodo_gracia_meses < c.plazo_meses) :
    ∃ tabla, generarTablaAmortizacion c d = some tabla ∧
      (∀ r ∈ tabla, 0 ≤ r.saldo) ∧
      List.Chain' (fun a b => b.saldo ≤ a.saldo) tabla ∧
      ∃ last, tabla.getLast? = some last ∧ last.saldo = 0 := by
  have ht : 0 ≤ c.tasa_nominal / 100 / 12 := by positivity
  unfold generarTablaAmortizacion
  by_cases hb : c.es_bullet
  · rw [if_pos hb]
    unfold amortizacionBullet
    obtain ⟨hmem, hchain, hlast⟩ :=
      bullet_table_props c.monto_principal (c.tasa_nominal / 100 / 12)
        (comisionMantenimiento c.comisiones) d c.plazo_meses hm hn
    exact ⟨_, rfl, fun r hr => (hmem r hr).1, hchain, hlast⟩
  · rw [if_neg hb]
    have hb' : c.es_bullet = false := (Bool.not_eq_true c.es_bullet).mp hb
    by_cases hgr : 0 < c.periodo_gracia_meses
    · rw [if_pos hgr]
      have hgn : c.periodo_gracia_meses < c.plazo_meses := hg.resolve_left (by omega)
      rw [amortizacionConGracia_eq c d hb' hgn]
      have hn' : 0 < c.plazo_meses - c.periodo_gracia_meses := by omega
      obtain ⟨hFmem, hFchain, lastF, hlastF, hlastF0⟩ :=
        francesa_table_props c.monto_principal (c.tasa_nominal / 100 / 12)
          (comisionMantenimiento c.comisiones) d (c.plazo_meses - c.periodo_gracia_meses)
          (c.periodo_gracia_meses + 1) hm ht hn'
      have hGsaldo := graceRows_saldo (c.tasa_nominal / 100 / 12)
        (comisionMantenimiento c.comisiones) c.monto_principal d
      refine ⟨_, rfl, ?_, ?_, ?_⟩
      · intro r hr
        rcases List.mem_append.1 hr with h | h
        · rw [hGsaldo c.periodo_gracia_meses 1 r h]
          exact round2_nonneg hm
        · exact (hFmem r h).1
      · rw [List.chain'_append]
        refine ⟨graceRows_chain _ _ _ _ _ _, hFchain, fun x hx y hy => ?_⟩
        rw [hGsaldo c.periodo_gracia_meses 1 x (List.mem_of_mem_getLast? hx)]
        exact ((hFmem y (List.mem_of_mem_head? hy)).2.1)
      · have hFne : francesaRows (c.tasa_nominal / 100 / 12)
            (comisionMantenimiento c.comisiones)
            (cuotaFrancesa c.monto_principal (c.tasa_nominal / 100 / 12)
              (c.plazo_meses - c.periodo_gracia_meses)) d
            (c.plazo_meses - c.periodo_gracia_meses) (c.periodo_gracia_meses + 1)
            c.monto_principal ≠ [] := by
          intro hnil
          have := francesaRows_length (c.tasa_nominal / 100 / 12)
            (comisionMantenimiento c.comisiones)
            (cuotaFrancesa c.monto_principal (c.tasa_nominal / 100 / 12)
              (c.plazo_meses - c.periodo_gracia_meses)) d
            (c.plazo_meses - c.periodo_gracia_meses) (c.periodo_gracia_meses + 1)
            c.monto_principal
          rw [hnil] at this
          exact absurd this.symm hn'.ne'
        rw [List.getLast?_append_of_ne_nil _ hFne]
        exact ⟨lastF, hlastF, hlastF0⟩
    · rw [if_neg hgr]
      rw [amortizacionFrancesa_eq c d hn]
      obtain ⟨hmem, hchain, hlast⟩ :=
        francesa_table_props c.monto_principal (c.tasa_nominal / 100 / 12)
          (comisionMantenimiento c.comisiones) d c.plazo_meses 1 hm ht hn
      exact ⟨_, rfl, fun r hr => (hmem r hr).1, hchain, hlast⟩

/-! ### Per-row payment split, for any table the dispatcher can produce -/

lemma generar_split (c : ContratoParseado) (d : ℤ) (tabla : List FilaAmortizacion)
    (h : generarTablaAmortizacion c d = some tabla) :
    ∀ r ∈ tabla, ∃ x y,
      r.capital = round2 x ∧ r.interes = round2 y ∧ r.cuota = round2 (x + y) := by
  unfold generarTablaAmortizacion at h
  by_cases hb : c.es_bullet
  · rw [if_pos hb] at h
    injection h with h
    subst h
    intro r hr
    exact bulletRows_split _ _ d _ _ _ _ r hr
  · rw [if_neg hb] at h
    have hb' : c.es_bullet = false := (Bool.not_eq_true c.es_bullet).mp hb
    by_cases hg : 0 < c.periodo_gracia_meses
    · rw [if_pos hg] at h
      simp only [amortizacionConGracia, hb', Bool.false_eq_true, if_false] at h
      by_cases h1 : 0 < c.tasa_nominal / 100 / 12
      · rw [if_pos h1] at h
        by_cases h2 : (1 + c.tasa_nominal / 100 / 12)
            ^ ((c.plazo_meses : ℤ) - (c.periodo_gracia_meses : ℤ)) - 1 = 0
        · rw [if_pos h2] at h
          cases h
        · rw [if_neg h2] at h
          injection h with h
          subst h
          intro r hr
          rcases List.mem_append.1 hr with hmem | hmem
          · exact graceRows_split _ _ _ d _ _ r hmem
          · exact francesaRows_split _ _ _ d _ _ _ r hmem
      · rw [if_neg h1] at h
        by_cases h2 : (c.plazo_meses : ℤ) - (c.periodo_gracia_meses : ℤ) = 0
        · rw [if_pos h2] at h
          cases h
        · rw [if_neg h2] at h
          injection h with h
          subst h
          intro r hr
          rcases List.mem_append.1 hr with hmem | hmem
          · exact graceRows_split _ _ _ d _ _ r hmem
          · exact francesaRows_split _ _ _ d _ _ _ r hmem
    · rw [if_neg hg] at h
      simp only [amortizacionFrancesa] at h
      by_cases h1 : 0 < c.tasa_nominal / 100 / 12
      · rw [if_pos h1] at h
        by_cases h2 : (1 + c.tasa_nominal / 100 / 12) ^ c.plazo_meses - 1 = 0
        · rw [if_pos h2] at h
          cases h
        · rw [if_neg h2] at h
          injection h with h
          subst h
          intro r hr
          exact francesaRows_split _ _ _ d _ _ _ r hr
      · rw [if_neg h1] at h
        by_cases h2 : c.plazo_meses = 0
        · rw [if_pos h2] at h
          cases h
        · rw [if_neg h2] at h
          injection h with h
          subst h
          intro r hr
          exact francesaRows_split _ _ _ d _ _ _ r hr

/-! ### Claim C1 -/

/-- C1: for every contract with principal ≥ 0, nominal rate ≥ 0, term ≥ 1
month, and grace period either 0 or strictly below the term, the generated
amortization schedule (whichever of the three policies the dispatcher picks)
exists, every row's remaining balance is ≥ 0, the balances are monotonically
non-increasing row to row, and the final row's balance is 0 within 0.01. -/
theorem C1_invariantes_saldo (c : ContratoParseado) (d : ℤ)
    (hm : 0 ≤ c.monto_principal) (hr : 0 ≤ c.tasa_nominal) (hn : 1 ≤ c.plazo_meses)
    (hg : c.periodo_gracia_meses = 0 ∨ c.periodo_gracia_meses < c.plazo_meses) :
    ∃ tabla, generarTablaAmortizacion c d = some tabla ∧
      (∀ r ∈ tabla, 0 ≤ r.saldo) ∧
      List.Chain' (fun a b => b.saldo ≤ a.saldo) tabla ∧
      ∃ last, tabla.getLast? = some last ∧ |last.saldo| ≤ 1 / 100 := by
  obtain ⟨tabla, htab, hpos, hchain, last, hlast, h0⟩ := generar_invariants c d hm hr hn hg
  refine ⟨tabla, htab, hpos, hchain, last, hlast, ?_⟩
  rw [h0]
  norm_num

/-- Witness for C1: the invariants instantiated at the concrete 100,000 /
12% / 12-month contract. -/
theorem C1_invariantes_saldo_witness :
    ∃ tabla, generarTablaAmortizacion contratoC2 0 = some tabla ∧
      (∀ r ∈ tabla, 0 ≤ r.saldo) ∧
      List.Chain' (fun a b => b.saldo ≤ a.saldo) tabla ∧
      ∃ last, tabla.getLast? = some last ∧ |last.saldo| ≤ 1 / 100 :=
  C1_invariantes_saldo contratoC2 0 (by norm_num [contratoC2]) (by norm_num [contratoC2])
    (by norm_num [contratoC2]) (Or.inl rfl)

/-! ### Claim C2 -/

/-- C2: the standard-annuity schedule of the contract with principal 100,000,
nominal rate 12% annual, 12 monthly periods and no fees has exactly 12 rows,
every row's payment equals 8,884.88, and the final balance is 0 within 0.01. -/
theorem C2_escenario_estandar (d : ℤ) :
    ∃ tabla, generarTablaAmortizacion contratoC2 d = some tabla ∧
      tabla.length = 12 ∧
      (∀ r ∈ tabla, r.cuota = 888488 / 100) ∧
      ∃ last, tabla.getLast? = some last ∧ |last.saldo| ≤ 1 / 100 := by
  have hdisp : generarTablaAmortizacion contratoC2 d = amortizacionFrancesa contratoC2 d := rfl
  rw [hdisp, amortizacionFrancesa_eq contratoC2 d (by norm_num [contratoC2])]
  refine ⟨_, rfl, francesaRows_length _ _ _ _ _ _ _, ?_, ?_⟩
  · intro r hr
    rw [francesaRows_cuota _ _ _ d _ _ _ r hr]
    have h1 : cuotaFrancesa contratoC2.monto_principal (contratoC2.tasa_nominal / 100 / 12)
        contratoC2.plazo_meses
        = 1126825030131969720661201000 / 126825030131969720661201 := by
      norm_num [cuotaFrancesa, contratoC2]
    rw [round2, h1, round_eq]
    norm_num
  · obtain ⟨_, _, last, hlast, h0⟩ :=
      francesa_table_props contratoC2.monto_principal (contratoC2.tasa_nominal / 100 / 12)
        (comisionMantenimiento contratoC2.comisiones) d contratoC2.plazo_meses 1
        (by norm_num [contratoC2]) (by norm_num [contratoC2]) (by norm_num [contratoC2])
    refine ⟨last, hlast, ?_⟩
    rw [h0]
    norm_num

/-! ### Claim C3 -/

/-- C3 counterexample: generating the schedule of the fully defaulted contract
(term 0, non-bullet) is a division-by-zero run (`none`), so schedule
generation with term 0 raises rather than returning a defined result. -/
theorem C3_contraejemplo_plazo_cero :
    generarTablaAmortizacion contratoVacio 0 = none := by
  norm_num [generarTablaAmortizacion, contratoVacio, amortizacionFrancesa]

/-- C3 amended: the total-annual-cost computation is guarded and returns 0
when the term or the principal is 0, but schedule generation is not guarded:
for every non-bullet contract whose grace period equals its term (including
term 0 with no grace), the generator divides by zero (modelled `none`). -/
theorem C3_guardias_de_division :
    (∀ (c : ContratoParseado) (ti tc : ℚ),
       c.plazo_meses = 0 ∨ c.monto_principal = 0 → calcularCat c ti tc = 0) ∧
    (∀ (c : ContratoParseado) (d : ℤ), c.es_bullet = false →
       c.periodo_gracia_meses = c.plazo_meses →
       generarTablaAmortizacion c d = none) := by
  constructor
  · intro c ti tc h
    unfold calcularCat
    rcases h with h | h
    · rw [if_pos (Or.inl (by rw [h]; norm_num))]
    · rw [if_pos (Or.inr h)]
  · intro c d hb hgn
    unfold generarTablaAmortizacion
    rw [if_neg (by rw [hb]; exact Bool.false_ne_true)]
    by_cases hg : 0 < c.periodo_gracia_meses
    · rw [if_pos hg]
      simp only [amortizacionConGracia, hb, Bool.false_eq_true, if_false]
      have hz : (c.plazo_meses : ℤ) - (c.periodo_gracia_meses : ℤ) = 0 := by omega
      rw [hz]
      by_cases h1 : 0 < c.tasa_nominal / 100 / 12
      · rw [if_pos h1, if_pos (by simp)]
      · rw [if_neg h1, if_pos rfl]
    · rw [if_neg hg]
      have hn0 : c.plazo_meses = 0 := by omega
      simp only [amortizacionFrancesa, hn0]
      by_cases h1 : 0 < c.tasa_nominal / 100 / 12
      · rw [if_pos h1, if_pos (by simp)]
      · rw [if_neg h1]
        simp

/-- Witness for C3 at concrete inputs. -/
theorem C3_guardias_de_division_witness :
    calcularCat contratoVacio 5 7 = 0 ∧ generarTablaAmortizacion contratoVacio 3 = none :=
  ⟨C3_guardias_de_division.1 contratoVacio 5 7 (Or.inl rfl),
   C3_guardias_de_division.2 contratoVacio 3 rfl rfl⟩

/-! ### Claim C4 -/

/-- The first row of the 0.3075 / 600% / 2-month schedule, computed exactly:
independently rounded fields with `capital + interes = 0.27 ≠ 0.28 = cuota`. -/
lemma contratoC4_cabeza :
    ∃ tabla r, generarTablaAmortizacion contratoC4 0 = some tabla ∧
      tabla.head? = some r ∧ r.comision_mantenimiento = 0 ∧
      r.capital = 12 / 100 ∧ r.interes = 15 / 100 ∧ r.cuota = 28 / 100 := by
  have hdisp : generarTablaAmortizacion contratoC4 0 = amortizacionFrancesa contratoC4 0 := by
    simp [generarTablaAmortizacion, contratoC4]
  rw [hdisp, amortizacionFrancesa_eq contratoC4 0 (by norm_num [contratoC4])]
  rw [show contratoC4.plazo_meses = 2 from rfl, francesaRows_succ]
  refine ⟨_, _, rfl, rfl, ?_, ?_, ?_, ?_⟩
  · show round2 (contratoC4.monto_principal * comisionMantenimiento contratoC4.comisiones) = 0
    rw [show contratoC4.monto_principal * comisionMantenimiento contratoC4.comisiones = 0 by
      norm_num [contratoC4, comisionMantenimiento]]
    exact round2_zero
  · show round2 (cuotaFrancesa contratoC4.monto_principal (contratoC4.tasa_nominal / 100 / 12)
      contratoC4.plazo_meses - contratoC4.monto_principal * (contratoC4.tasa_nominal / 100 / 12))
      = 12 / 100
    rw [show cuotaFrancesa contratoC4.monto_principal (contratoC4.tasa_nominal / 100 / 12)
        contratoC4.plazo_meses - contratoC4.monto_principal * (contratoC4.tasa_nominal / 100 / 12)
        = 123 / 1000 by norm_num [cuotaFrancesa, contratoC4]]
    rw [round2, round_eq]
    norm_num
  · show round2 (contratoC4.monto_principal * (contratoC4.tasa_nominal / 100 / 12)) = 15 / 100
    rw [show contratoC4.monto_principal * (contratoC4.tasa_nominal / 100 / 12) = 123 / 800 by
      norm_num [contratoC4]]
    rw [round2, round_eq]
    norm_num
  · show round2 (cuotaFrancesa contratoC4.monto_principal (contratoC4.tasa_nominal / 100 / 12)
      contratoC4.plazo_meses) = 28 / 100
    rw [show cuotaFrancesa contratoC4.monto_principal (contratoC4.tasa_nominal / 100 / 12)
        contratoC4.plazo_meses = 1107 / 4000 by norm_num [cuotaFrancesa, contratoC4]]
    rw [round2, round_eq]
    norm_num

/-- C4 counterexample: in the schedule of the 0.3075 / 600% / 2-month
contract, the first row has zero maintenance fee yet its rounded principal
plus rounded interest (0.12 + 0.15) differs from its rounded payment (0.28). -/
theorem C4_contraejemplo_redondeo :
    ∃ tabla r, generarTablaAmortizacion contratoC4 0 = some tabla ∧
      tabla.head? = some r ∧ r.comision_mantenimiento = 0 ∧
      ¬ (r.capital + r.interes = r.cuota) := by
  obtain ⟨tabla, r, htab, hhead, hmant, hcap, hint, hcuo⟩ := contratoC4_cabeza
  refine ⟨tabla, r, htab, hhead, hmant, ?_⟩
  rw [hcap, hint, hcuo]
  norm_num

/-- C4 amended: for every contract and every generated row, the rounded
principal component plus the rounded interest component equals the rounded
payment up to at most 0.01 (the three fields are independently rounded images
of exact quantities satisfying `capital + interes = cuota` exactly). -/
theorem C4_cuadratura_de_fila (c : ContratoParseado) (d : ℤ)
    (tabla : List FilaAmortizacion) (h : generarTablaAmortizacion c d = some tabla) :
    ∀ r ∈ tabla, r.comision_mantenimiento = 0 →
      |r.capital + r.interes - r.cuota| ≤ 1 / 100 := by
  intro r hr _
  obtain ⟨x, y, hc, hi, hq⟩ := generar_split c d tabla h r hr
  rw [hc, hi, hq]
  have := abs_round2_add_round2_sub_round2 x y
  linarith [abs_nonneg (round2 x + round2 y - round2 (x + y))]

/-- Witness for C4 at the concrete first row of the 0.3075 / 600% / 2-month
schedule, where the discrepancy attains the bound: |0.12 + 0.15 − 0.28| = 0.01. -/
theorem C4_cuadratura_de_fila_witness :
    ∃ tabla r, generarTablaAmortizacion contratoC4 0 = some tabla ∧ r ∈ tabla ∧
      r.comision_mantenimiento = 0 ∧ |r.capital + r.interes - r.cuota| ≤ 1 / 100 := by
  obtain ⟨tabla, r, htab, hhead, hmant, _, _, _⟩ := contratoC4_cabeza
  have hmem : r ∈ tabla := List.mem_of_mem_head? (by rw [hhead]; exact rfl)
  exact ⟨tabla, r, htab, hmem, hmant,
    C4_cuadratura_de_fila contratoC4 0 tabla htab r hmem hmant⟩

/-! ### Claims C5 and C6 -/

/-- C5 counterexample: the fully degenerate contract (zero principal, fixed
rate 0, zero term, no guarantees, no fees, no party names) triggers all seven
deductions, so its confidence score is 100 − 70 = 30, not the 45 the
specification's worked example states. -/
theorem C5_contraejemplo_45 : (calcularConfianza contratoVacio).1 ≠ 45 := by
  have h : (calcularConfianza contratoVacio).1 = 30 := by
    norm_num [calcularConfianza, contratoVacio, max_def]
  rw [h]
  norm_num

/-- C5 amended: the confidence score is 100 minus the fixed deduction table
(principal −20; fixed rate 0 −15; term 0 −15; no guarantees −5; no fees −5;
missing lender −5; missing borrower −5), clamped below at 0 (hence always in
[0, 100]); the degenerate contract scores exactly 30. -/
theorem C5_puntaje_de_confianza :
    (∀ c : ContratoParseado,
       (calcularConfianza c).1 =
         max 0 (100 - ((if c.monto_principal = 0 then (20 : ℚ) else 0) +
           (if c.tasa_nominal = 0 ∧ c.tipo_tasa = TipoTasa.fija then 15 else 0) +
           (if c.plazo_meses = 0 then 15 else 0) +
           (if c.garantias = [] then 5 else 0) +
           (if c.comisiones = [] then 5 else 0) +
           (if c.prestamista = "" then 5 else 0) +
           (if c.prestatario = "" then 5 else 0))) ∧
       0 ≤ (calcularConfianza c).1 ∧ (calcularConfianza c).1 ≤ 100) ∧
    (calcularConfianza contratoVacio).1 = 30 := by
  constructor
  · intro c
    have hsum : (calcularConfianza c).1 =
        max 0 (100 - ((if c.monto_principal = 0 then (20 : ℚ) else 0) +
          (if c.tasa_nominal = 0 ∧ c.tipo_tasa = TipoTasa.fija then 15 else 0) +
          (if c.plazo_meses = 0 then 15 else 0) +
          (if c.garantias = [] then 5 else 0) +
          (if c.comisiones = [] then 5 else 0) +
          (if c.prestamista = "" then 5 else 0) +
          (if c.prestatario = "" then 5 else 0))) := by
      unfold calcularConfianza
      congr 1
      ring_nf
    refine ⟨hsum, ?_, ?_⟩
    · rw [hsum]
      exact le_max_left 0 _
    · rw [hsum]
      apply max_le (by norm_num)
      have h1 : 0 ≤ (if c.monto_principal = 0 then (20 : ℚ) else 0) := by positivity
      have h2 : 0 ≤ (if c.tasa_nominal = 0 ∧ c.tipo_tasa = TipoTasa.fija then (15 : ℚ) else 0) := by
        positivity
      have h3 : 0 ≤ (if c.plazo_meses = 0 then (15 : ℚ) else 0) := by positivity
      have h4 : 0 ≤ (if c.garantias = [] then (5 : ℚ) else 0) := by positivity
      have h5 : 0 ≤ (if c.comisiones = [] then (5 : ℚ) else 0) := by positivity
      have h6 : 0 ≤ (if c.prestamista = "" then (5 : ℚ) else 0) := by positivity
      have h7 : 0 ≤ (if c.prestatario = "" then (5 : ℚ) else 0) := by positivity
      linarith
  · norm_num [calcularConfianza, contratoVacio, max_def]

/-- C6 counterexample: scoring the fully degenerate contract applies seven
deductions but appends only five warnings (the lender-name and borrower-name
deductions append nothing), so the warning count is 5, not 7. -/
theorem C6_contraejemplo_advertencias : (calcularConfianza contratoVacio).2.length ≠ 7 := by
  have h : (calcularConfianza contratoVacio).2.length = 5 := by
    simp [calcularConfianza, contratoVacio]
  rw [h]
  norm_num

/-- C6 amended: the scorer appends exactly one warning per deduction for the
first five deductions (principal, rate, term, guarantees, fees) and none for
the two party-name deductions; the degenerate contract receives 5 warnings. -/
theorem C6_una_advertencia_por_deduccion :
    (∀ c : ContratoParseado,
       (calcularConfianza c).2.length =
         (if c.monto_principal = 0 then 1 else 0) +
         (if c.tasa_nominal = 0 ∧ c.tipo_tasa = TipoTasa.fija then 1 else 0) +
         (if c.plazo_meses = 0 then 1 else 0) +
         (if c.garantias = [] then 1 else 0) +
         (if c.comisiones = [] then 1 else 0)) ∧
    (calcularConfianza contratoVacio).2.length = 5 := by
  constructor
  · intro c
    unfold calcularConfianza
    split_ifs <;> simp_all
  · simp [calcularConfianza, contratoVacio]

/-! ### Date-shift lemmas: the invocation instant only moves the dates -/

lemma amortizacionFrancesa_shift (c : ContratoParseado) (d : ℤ) :
    amortizacionFrancesa c d = (amortizacionFrancesa c 0).map (List.map (shiftFila d)) := by
  unfold amortizacionFrancesa
  by_cases h1 : 0 < c.tasa_nominal / 100 / 12
  · rw [if_pos h1, if_pos h1]
    by_cases h2 : (1 + c.tasa_nominal / 100 / 12) ^ c.plazo_meses - 1 = 0
    · rw [if_pos h2, if_pos h2]
      rfl
    · rw [if_neg h2, if_neg h2,
        francesaRows_shift (c.tasa_nominal / 100 / 12) (comisionMantenimiento c.comisiones) _ d]
      rfl
  · rw [if_neg h1, if_neg h1]
    by_cases h2 : c.plazo_meses = 0
    · rw [if_pos h2, if_pos h2]
      rfl
    · rw [if_neg h2, if_neg h2,
        francesaRows_shift (c.tasa_nominal / 100 / 12) (comisionMantenimiento c.comisiones) _ d]
      rfl

lemma amortizacionBullet_shift (c : ContratoParseado) (d : ℤ) :
    amortizacionBullet c d = (amortizacionBullet c 0).map (shiftFila d) := by
  unfold amortizacionBullet
  exact bulletRows_shift _ _ d _ _ _ _

lemma amortizacionConGracia_shift (c : ContratoParseado) (d : ℤ) :
    amortizacionConGracia c d = (amortizacionConGracia c 0).map (List.map (shiftFila d)) := by
  unfold amortizacionConGracia
  by_cases hb : c.es_bullet
  · rw [if_pos hb, if_pos hb,
      graceRows_shift (c.tasa_nominal / 100 / 12) (comisionMantenimiento c.comisiones)
        c.monto_principal d,
      bulletRows_shift (c.tasa_nominal / 100 / 12) (comisionMantenimiento c.comisiones) d]
    simp [List.map_append]
  · rw [if_neg hb, if_neg hb]
    by_cases h1 : 0 < c.tasa_nominal / 100 / 12
    · rw [if_pos h1, if_pos h1]
      by_cases h2 : (1 + c.tasa_nominal / 100 / 12)
          ^ ((c.plazo_meses : ℤ) - (c.periodo_gracia_meses : ℤ)) - 1 = 0
      · rw [if_pos h2, if_pos h2]
        rfl
      · rw [if_neg h2, if_neg h2,
          graceRows_shift (c.tasa_nominal / 100 / 12) (comisionMantenimiento c.comisiones)
            c.monto_principal d,
          francesaRows_shift (c.tasa_nominal / 100 / 12) (comisionMantenimiento c.comisiones) _ d]
        simp [List.map_append]
    · rw [if_neg h1, if_neg h1]
      by_cases h2 : (c.plazo_meses : ℤ) - (c.periodo_gracia_meses : ℤ) = 0
      · rw [if_pos h2, if_pos h2]
        rfl
      · rw [if_neg h2, if_neg h2,
          graceRows_shift (c.tasa_nominal / 100 / 12) (comisionMantenimiento c.comisiones)
            c.monto_principal d,
          francesaRows_shift (c.tasa_nominal / 100 / 12) (comisionMantenimiento c.comisiones) _ d]
        simp [List.map_append]

lemma generar_shift (c : ContratoParseado) (d : ℤ) :
    generarTablaAmortizacion c d
      = (generarTablaAmortizacion c 0).map (List.map (shiftFila d)) := by
  unfold generarTablaAmortizacion
  by_cases hb : c.es_bullet
  · rw [if_pos hb, if_pos hb, amortizacionBullet_shift]
    rfl
  · rw [if_neg hb, if_neg hb]
    by_cases hg : 0 < c.periodo_gracia_meses
    · rw [if_pos hg, if_pos hg]
      exact amortizacionConGracia_shift c d
    · rw [if_neg hg, if_neg hg]
      exact amortizacionFrancesa_shift c d

/-- A row with its date field cleared. -/
def quitarFecha (r : FilaAmortizacion) : FilaAmortizacion := { r with fecha := 0 }

lemma map_interes_map_shift (d : ℤ) (l : List FilaAmortizacion) :
    (l.map (shiftFila d)).map (fun r => r.interes) = l.map (fun r => r.interes) := by
  rw [List.map_map]
  rfl

lemma map_cuota_map_shift (d : ℤ) (l : List FilaAmortizacion) :
    (l.map (shiftFila d)).map (fun r => r.cuota) = l.map (fun r => r.cuota) := by
  rw [List.map_map]
  rfl

lemma pySliceStop_map_shift (d : ℤ) (l : List FilaAmortizacion) (stop : ℤ) :
    pySliceStop (l.map (shiftFila d)) stop = (pySliceStop l stop).map (shiftFila d) := by
  unfold pySliceStop
  rw [List.length_map]
  split_ifs
  · exact (List.map_take _ _ _).symm
  · exact (List.map_take _ _ _).symm

lemma pyGet_map_shift (d : ℤ) (l : List FilaAmortizacion) (i : ℤ) :
    pyGet (l.map (shiftFila d)) i = (pyGet l i).map (shiftFila d) := by
  unfold pyGet
  rw [List.length_map]
  split_ifs
  · exact List.getElem?_map _ _ _
  · exact List.getElem?_map _ _ _
  · rfl

lemma escenarioEntry_indep (c : ContratoParseado) (d₁ d₂ : ℤ) (cambio : ℚ) :
    escenarioEntry c d₁ cambio = escenarioEntry c d₂ cambio := by
  have key : ∀ d : ℤ, escenarioEntry c d cambio = escenarioEntry c 0 cambio := by
    intro d
    simp only [escenarioEntry]
    rw [generar_shift (contratoModificado c (tasaEscenario c cambio)) d, generar_shift c d]
    cases generarTablaAmortizacion (contratoModificado c (tasaEscenario c cambio)) 0 with
    | none => rfl
    | some tabla =>
        cases generarTablaAmortizacion c 0 with
        | none => rfl
        | some base =>
            simp only [Option.map_some']
            rw [map_interes_map_shift, map_cuota_map_shift, map_interes_map_shift,
              List.length_map]
            simp [List.map_eq_nil_iff]
  rw [key d₁, key d₂]

lemma calcularEscenarioPrepago_indep (c : ContratoParseado) (d₁ d₂ : ℤ) (mes : ℕ) (mp : ℚ) :
    calcularEscenarioPrepago c d₁ mes mp = calcularEscenarioPrepago c d₂ mes mp := by
  have key : ∀ d : ℤ, calcularEscenarioPrepago c d mes mp = calcularEscenarioPrepago c 0 mes mp := by
    intro d
    simp only [calcularEscenarioPrepago]
    rw [generar_shift c d]
    cases generarTablaAmortizacion c 0 with
    | none => rfl
    | some tabla =>
        simp only [Option.map_some']
        rw [map_interes_map_shift, List.length_map, pySliceStop_map_shift,
          map_interes_map_shift, pyGet_map_shift]
        by_cases hm : (mes : ℤ) ≤ (tabla.length : ℤ)
        · rw [if_pos hm, if_pos hm]
          cases pyGet tabla ((mes : ℤ) - 1) with
          | none => rfl
          | some fila => rfl
        · rw [if_neg hm, if_neg hm]
  rw [key d₁, key d₂]

/-! ### Claim C7 -/

/-- C7 counterexample: generating the same contract's schedule at two
different invocation instants (day 0 and day 30) yields different results —
the row dates differ. -/
theorem C7_contraejemplo_fechas :
    generarTablaAmortizacion contratoC4 0 ≠ generarTablaAmortizacion contratoC4 30 := by
  intro heq
  have h0 : generarTablaAmortizacion contratoC4 0 = amortizacionFrancesa contratoC4 0 := by
    simp [generarTablaAmortizacion, contratoC4]
  have h30 : generarTablaAmortizacion contratoC4 30 = amortizacionFrancesa contratoC4 30 := by
    simp [generarTablaAmortizacion, contratoC4]
  rw [h0, h30, amortizacionFrancesa_eq contratoC4 0 (by norm_num [contratoC4]),
    amortizacionFrancesa_eq contratoC4 30 (by norm_num [contratoC4]),
    show contratoC4.plazo_meses = 2 from rfl, francesaRows_succ, francesaRows_succ] at heq
  injection heq with h
  have h2 := congrArg List.head? h
  simp only [List.head?_cons] at h2
  injection h2 with h3
  have h4 : (0 : ℤ) + 30 * ((1 : ℕ) : ℤ) = 30 + 30 * ((1 : ℕ) : ℤ) :=
    congrArg FilaAmortizacion.fecha h3
  omega

/-- C7 amended: each public computation is a deterministic function of the
contract and the invocation instant; the instant influences only the row
dates. Concretely: the date-stripped schedule, the sensitivity analysis and
the prepayment scenario are identical across any two invocation instants
(only the schedule's `fecha` fields change, as the counterexample shows). -/
theorem C7_determinismo_salvo_fechas :
    (∀ (c : ContratoParseado) (d₁ d₂ : ℤ),
       (generarTablaAmortizacion c d₁).map (List.map quitarFecha)
         = (generarTablaAmortizacion c d₂).map (List.map quitarFecha)) ∧
    (∀ (c : ContratoParseado) (d₁ d₂ : ℤ),
       analisisSensibilidad c d₁ = analisisSensibilidad c d₂) ∧
    (∀ (c : ContratoParseado) (d₁ d₂ : ℤ) (mes : ℕ) (mp : ℚ),
       calcularEscenarioPrepago c d₁ mes mp = calcularEscenarioPrepago c d₂ mes mp) := by
  refine ⟨?_, ?_, fun c d₁ d₂ mes mp => calcularEscenarioPrepago_indep c d₁ d₂ mes mp⟩
  · intro c d₁ d₂
    have key : ∀ d : ℤ, (generarTablaAmortizacion c d).map (List.map quitarFecha)
        = (generarTablaAmortizacion c 0).map (List.map quitarFecha) := by
      intro d
      rw [generar_shift c d]
      cases generarTablaAmortizacion c 0 with
      | none => rfl
      | some tabla =>
          simp only [Option.map_some', List.map_map]
          rw [show quitarFecha ∘ shiftFila d = quitarFecha from funext fun r => rfl]
    rw [key d₁, key d₂]
  · intro c d₁ d₂
    unfold analisisSensibilidad
    rw [show escenarioEntry c d₁ = escenarioEntry c d₂ from
      funext fun cambio => escenarioEntry_indep c d₁ d₂ cambio]

/-! ### Claim C8 -/

/-- C8 counterexample: for the quarterly-frequency contract (principal 1000,
nominal 12%, term 12 months) the schedule's payment is the monthly-rate value
88.85, not the 269.03 that the specification's periods-per-year formula
(`i = 12/100/4`, `n = 4` quarters) would give. -/
theorem C8_contraejemplo_trimestral :
    ∃ tabla r, generarTablaAmortizacion contratoC8 0 = some tabla ∧
      tabla.head? = some r ∧ r.cuota ≠ round2 (cuotaSegunSpecC8 contratoC8) := by
  have hdisp : generarTablaAmortizacion contratoC8 0 = amortizacionFrancesa contratoC8 0 := by
    simp [generarTablaAmortizacion, contratoC8]
  rw [hdisp, amortizacionFrancesa_eq contratoC8 0 (by norm_num [contratoC8]),
    show contratoC8.plazo_meses = 12 from rfl, francesaRows_succ]
  refine ⟨_, _, rfl, rfl, ?_⟩
  show round2 (cuotaFrancesa contratoC8.monto_principal (contratoC8.tasa_nominal / 100 / 12) 12)
      ≠ round2 (cuotaSegunSpecC8 contratoC8)
  rw [show cuotaFrancesa contratoC8.monto_principal (contratoC8.tasa_nominal / 100 / 12) 12
      = 11268250301319697206612010 / 126825030131969720661201 by
        norm_num [cuotaFrancesa, contratoC8]]
  rw [show cuotaSegunSpecC8 contratoC8 = 3376526430 / 12550881 by
    norm_num [cuotaSegunSpecC8, contratoC8, periodosPorAno]]
  rw [round2, round2, round_eq, round_eq]
  norm_num

/-- C8 amended: every standard-annuity schedule is computed with the monthly
periodic rate `nominal / 100 / 12` and `n` = term in months, regardless of the
contract's payment frequency; the periods-per-year table (12/4/2/1) is used
only by the effective-annual-rate computation. -/
theorem C8_tasa_periodica_mensual (c : ContratoParseado) (d : ℤ)
    (hb : c.es_bullet = false) (hg : c.periodo_gracia_meses = 0) (hn : 0 < c.plazo_meses) :
    (∃ tabla, generarTablaAmortizacion c d = some tabla ∧
       ∀ r ∈ tabla, r.cuota =
         round2 (cuotaFrancesa c.monto_principal (c.tasa_nominal / 100 / 12) c.plazo_meses)) ∧
    calcularTea c =
      round2 (((1 + (c.tasa_nominal / 100) / (periodosPorAno c.frecuencia_pago : ℚ))
        ^ (periodosPorAno c.frecuencia_pago) - 1) * 100) := by
  constructor
  · have hdisp : generarTablaAmortizacion c d = amortizacionFrancesa c d := by
      unfold generarTablaAmortizacion
      rw [if_neg (by rw [hb]; exact Bool.false_ne_true), if_neg (by omega)]
    rw [hdisp, amortizacionFrancesa_eq c d hn]
    exact ⟨_, rfl, fun r hr => francesaRows_cuota _ _ _ d _ _ _ r hr⟩
  · rfl

/-- Witness for C8: the amended statement at the concrete quarterly
2-month contract. -/
theorem C8_tasa_periodica_mensual_witness :
    (∃ tabla, generarTablaAmortizacion contratoC8w 0 = some tabla ∧
       ∀ r ∈ tabla, r.cuota = round2 (cuotaFrancesa contratoC8w.monto_principal
         (contratoC8w.tasa_nominal / 100 / 12) contratoC8w.plazo_meses)) ∧
    calcularTea contratoC8w =
      round2 (((1 + (contratoC8w.tasa_nominal / 100)
          / (periodosPorAno contratoC8w.frecuencia_pago : ℚ))
        ^ (periodosPorAno contratoC8w.frecuencia_pago) - 1) * 100) :=
  C8_tasa_periodica_mensual contratoC8w 0 rfl rfl (by decide)

/-! ### Claim C9 -/

/-- The reported rate of any produced sensitivity entry is the rounded
`tasaEscenario` value (the source's truthiness-guarded cap/floor application). -/
lemma escenarioEntry_tasa (c : ContratoParseado) (d : ℤ) (cambio : ℚ)
    (e : EscenarioSensibilidad) (h : escenarioEntry c d cambio = some e) :
    e.tasa_resultante = round2 (tasaEscenario c cambio) := by
  simp only [escenarioEntry] at h
  split at h
  · cases h
  · split at h
    · cases h
    · injection h with h
      rw [← h]

/-- A sensitivity entry is produced whenever both schedule recomputations
succeed, which the table-existence lemma guarantees for well-formed inputs. -/
lemma escenarioEntry_isSome_of (c : ContratoParseado) (d : ℤ) (cambio : ℚ)
    (hm : 0 ≤ c.monto_principal) (htc : 0 ≤ c.tasa_nominal) (hn : 0 < c.plazo_meses)
    (hg : c.periodo_gracia_meses = 0 ∨ c.periodo_gracia_meses < c.plazo_meses)
    (ht : 0 ≤ tasaEscenario c cambio) :
    ∃ e, escenarioEntry c d cambio = some e := by
  obtain ⟨T, hT, _⟩ := generar_invariants (contratoModificado c (tasaEscenario c cambio)) d
    (by simpa [contratoModificado] using hm) (by simpa [contratoModificado] using ht)
    (by simpa [contratoModificado] using hn) (by simpa [contratoModificado] using hg)
  obtain ⟨B, hB, _⟩ := generar_invariants c d hm htc hn hg
  have hs : (escenarioEntry c d cambio).isSome := by
    simp only [escenarioEntry, hT, hB, Option.isSome_some]
  exact Option.isSome_iff_exists.mp hs

lemma mapM_loop_cons (f : ℚ → Option EscenarioSensibilidad) (a : ℚ) (l : List ℚ)
    (acc : List EscenarioSensibilidad) (b : EscenarioSensibilidad) (h : f a = some b) :
    List.mapM.loop f (a :: l) acc = List.mapM.loop f l (b :: acc) := by
  simp [List.mapM.loop, h]

lemma mapM_loop_nil (f : ℚ → Option EscenarioSensibilidad) (acc : List EscenarioSensibilidad) :
    List.mapM.loop f [] acc = some acc.reverse := by
  simp [List.mapM.loop]

/-- C9 counterexample: on a variable-rate contract whose cap is present with
value 0 (nominal 5, term 1 month), the +2.0 scenario reports rate 7.0 — the
truthiness test `if contrato.cap:` skips a zero cap — whereas the
specification's clamp (applied exactly when the cap is present) gives
min(7, 0) = 0. -/
theorem C9_contraejemplo_cap_cero :
    ∃ l e, analisisSensibilidad contratoC9cap0 0 = some l ∧ l[5]? = some e ∧
      escenariosSensibilidad[5]? = some 2 ∧
      e.tasa_resultante ≠ round2 (tasaSegunSpecC9 contratoC9cap0 2) := by
  obtain ⟨e0, he0⟩ := escenarioEntry_isSome_of contratoC9cap0 0 (-1)
    (by norm_num [contratoC9cap0]) (by norm_num [contratoC9cap0]) (by decide) (Or.inl rfl)
    (by norm_num [tasaEscenario, contratoC9cap0])
  obtain ⟨e1, he1⟩ := escenarioEntry_isSome_of contratoC9cap0 0 (-1/2)
    (by norm_num [contratoC9cap0]) (by norm_num [contratoC9cap0]) (by decide) (Or.inl rfl)
    (by norm_num [tasaEscenario, contratoC9cap0])
  obtain ⟨e2, he2⟩ := escenarioEntry_isSome_of contratoC9cap0 0 0
    (by norm_num [contratoC9cap0]) (by norm_num [contratoC9cap0]) (by decide) (Or.inl rfl)
    (by norm_num [tasaEscenario, contratoC9cap0])
  obtain ⟨e3, he3⟩ := escenarioEntry_isSome_of contratoC9cap0 0 (1/2)
    (by norm_num [contratoC9cap0]) (by norm_num [contratoC9cap0]) (by decide) (Or.inl rfl)
    (by norm_num [tasaEscenario, contratoC9cap0])
  obtain ⟨e4, he4⟩ := escenarioEntry_isSome_of contratoC9cap0 0 1
    (by norm_num [contratoC9cap0]) (by norm_num [contratoC9cap0]) (by decide) (Or.inl rfl)
    (by norm_num [tasaEscenario, contratoC9cap0])
  obtain ⟨e5, he5⟩ := escenarioEntry_isSome_of contratoC9cap0 0 2
    (by norm_num [contratoC9cap0]) (by norm_num [contratoC9cap0]) (by decide) (Or.inl rfl)
    (by norm_num [tasaEscenario, contratoC9cap0])
  refine ⟨[e0, e1, e2, e3, e4, e5], e5, ?_, rfl, rfl, ?_⟩
  · unfold analisisSensibilidad
    rw [if_pos (show contratoC9cap0.tipo_tasa = TipoTasa.variable_ from rfl)]
    show List.mapM.loop (escenarioEntry contratoC9cap0 0) [-1, -1/2, 0, 1/2, 1, 2] []
      = some [e0, e1, e2, e3, e4, e5]
    rw [mapM_loop_cons _ _ _ _ _ he0, mapM_loop_cons _ _ _ _ _ he1,
      mapM_loop_cons _ _ _ _ _ he2, mapM_loop_cons _ _ _ _ _ he3,
      mapM_loop_cons _ _ _ _ _ he4, mapM_loop_cons _ _ _ _ _ he5, mapM_loop_nil]
    rfl
  · rw [escenarioEntry_tasa contratoC9cap0 0 2 e5 he5]
    rw [show tasaEscenario contratoC9cap0 2 = 7 by norm_num [tasaEscenario, contratoC9cap0]]
    rw [show tasaSegunSpecC9 contratoC9cap0 2 = 0 by norm_num [tasaSegunSpecC9, contratoC9cap0]]
    rw [round2, round2, round_eq, round_eq]
    norm_num

/-- C9 amended: the scenario set is exactly {−1, −0.5, 0, +0.5, +1, +2}; every
produced entry reports `round2` of `nominal + shift` clamped by the cap and
then the floor, each applied exactly when the attribute is present *and
nonzero* (Python truthiness); on the specification's own instance (nominal 5,
cap 7, floor 3) the +2.0 scenario reports exactly 7. -/
theorem C9_tasa_de_escenario :
    escenariosSensibilidad = [-1, -1/2, 0, 1/2, 1, 2] ∧
    (∀ (c : ContratoParseado) (d : ℤ) (cambio : ℚ) (e : EscenarioSensibilidad),
       escenarioEntry c d cambio = some e →
         e.tasa_resultante = round2 (tasaEscenario c cambio)) ∧
    (∃ e, escenarioEntry contratoC9capfloor 0 2 = some e ∧ e.tasa_resultante = 7) := by
  refine ⟨rfl, fun c d cambio e h => escenarioEntry_tasa c d cambio e h, ?_⟩
  obtain ⟨e, he⟩ := escenarioEntry_isSome_of contratoC9capfloor 0 2
    (by norm_num [contratoC9capfloor]) (by norm_num [contratoC9capfloor]) (by decide)
    (Or.inl rfl) (by norm_num [tasaEscenario, contratoC9capfloor])
  refine ⟨e, he, ?_⟩
  rw [escenarioEntry_tasa contratoC9capfloor 0 2 e he]
  rw [show tasaEscenario contratoC9capfloor 2 = 7 by norm_num [tasaEscenario, contratoC9capfloor]]
  rw [round2, round_eq]
  norm_num

/-- Witness for C9: the entry equation of the +2 scenario on the 5/7/3
contract, with the hypothesis discharged concretely. -/
theorem C9_tasa_de_escenario_witness :
    ∃ e, escenarioEntry contratoC9capfloor 0 2 = some e ∧
      e.tasa_resultante = round2 (tasaEscenario contratoC9capfloor 2) := by
  obtain ⟨e, he⟩ := escenarioEntry_isSome_of contratoC9capfloor 0 2
    (by norm_num [contratoC9capfloor]) (by norm_num [contratoC9capfloor]) (by decide)
    (Or.inl rfl) (by norm_num [tasaEscenario, contratoC9capfloor])
  exact ⟨e, he, C9_tasa_de_escenario.2.1 contratoC9capfloor 0 2 e he⟩

/-! ### Claim C10 -/

/-- C10: the prepayment simulator never reads the prepayment clause's
`permitido` flag — two contracts identical except for that flag produce
identical results for every invocation instant, target period and extra
amount; the penalty depends only on the penalty window and rate. -/
theorem C10_independencia_de_permitido :
    ∀ (c : ContratoParseado) (d : ℤ) (mes : ℕ) (mp : ℚ) (b : Bool),
      calcularEscenarioPrepago
          { c with prepago := c.prepago.map (fun cl => { cl with permitido := b }) } d mes mp
        = calcularEscenarioPrepago c d mes mp := by
  intro c d mes mp b
  cases c with
  | mk pa pb m r tt n f cap fl g eb gar com pre =>
      cases pre with
      | none => rfl
      | some cl =>
          cases cl with
          | mk perm pen per desc => rfl

end Contratos
